import Mathlib

/-!
Verification of the Mori core protocol dispatcher, callback bus, host-bridge
views and packet types against their Rust sources
(`core/src/variant_handler.rs`, `core/src/lua.rs`, `core/src/types/bot.rs`).

Rust `HashMap`s are embedded as association lists with overwrite-on-insert;
panicking operations (`unwrap`, `expect`, indexing) are embedded in the
`Except String` monad, where `Except.error` marks a process abort.
-/

namespace Mori

/-! ## Association maps (model of `std::collections::HashMap`) -/

/-- Insert with overwrite, modelling `HashMap::insert`. -/
def mapInsert {K V : Type} [DecidableEq K] : List (K × V) → K → V → List (K × V)
  | [], k, v => [(k, v)]
  | (k', v') :: rest, k, v =>
    if k' = k then (k, v) :: rest else (k', v') :: mapInsert rest k v

/-- Lookup, modelling `HashMap::get`. -/
def mapLookup {K V : Type} [DecidableEq K] : List (K × V) → K → Option V
  | [], _ => none
  | (k', v') :: rest, k => if k' = k then some v' else mapLookup rest k

/-- Key-removal, modelling `HashMap::remove` (keys are unique). -/
def mapRemove {K V : Type} [DecidableEq K] (m : List (K × V)) (k : K) : List (K × V) :=
  m.filter (fun kv => kv.1 ≠ k)

/-- Membership test, modelling `HashMap::contains_key`. -/
def mapContains {K V : Type} [DecidableEq K] (m : List (K × V)) (k : K) : Bool :=
  (mapLookup m k).isSome

/-- Panicking indexing `map[key]`, modelling Rust's `Index` on `HashMap`. -/
def mapIndex {K V : Type} [DecidableEq K] (m : List (K × V)) (k : K) : Except String V :=
  match mapLookup m k with
  | some v => Except.ok v
  | none => Except.error "panic: key not found in map"

/-- `Option::unwrap`: panics on `None`. -/
def unwrapOpt {α : Type} : Option α → Except String α
  | some a => Except.ok a
  | none => Except.error "called Option::unwrap on a None value"

/-- `Option::expect(msg)` / `Result::expect(msg)` collapsed to the option view. -/
def expectOpt {α : Type} (msg : String) : Option α → Except String α
  | some a => Except.ok a
  | none => Except.error msg

/-- Panicking `Vec` indexing `v[i]`. -/
def listIndex {α : Type} (l : List α) (i : Nat) : Except String α :=
  match l.get? i with
  | some a => Except.ok a
  | none => Except.error "panic: index out of bounds"

/-! ## Rust string primitives over the character list

(Core `String` functions are avoided in favour of structural recursion on
`String.data`, so that every definition evaluates on concrete inputs.) -/

/-- `str::split(sep)` for a single-character separator (splitting the empty
string yields one empty segment, as in Rust). -/
def rsplitChar (sep : Char) (s : String) : List String :=
  (s.data.splitOn sep).map String.mk

/-- `str::trim_end` restricted to whitespace. -/
def rtrimEnd (s : String) : String :=
  String.mk (s.data.reverse.dropWhile Char.isWhitespace).reverse

/-- `str::trim`. -/
def rtrim (s : String) : String :=
  String.mk ((s.data.dropWhile Char.isWhitespace).reverse.dropWhile Char.isWhitespace).reverse

/-- `[T]::join(sep)` / re-joining split segments. -/
def joinSep (sep : String) : List String → String
  | [] => ""
  | [s] => s
  | s :: rest => s ++ sep ++ joinSep sep rest

/-- Whether `hay` starts with `needle`. -/
def listStartsWith {α : Type} [BEq α] : List α → List α → Bool
  | _, [] => true
  | [], _ :: _ => false
  | a :: as, b :: bs => a == b && listStartsWith as bs

/-- Whether `needle` occurs contiguously inside `hay`. -/
def listContainsSeq {α : Type} [BEq α] : List α → List α → Bool
  | hay, needle =>
    match hay with
    | [] => needle.isEmpty
    | _ :: rest => listStartsWith hay needle || listContainsSeq rest needle

/-- `str::contains` with a string pattern. -/
def containsSub (hay needle : String) : Bool :=
  listContainsSeq hay.data needle.data

/-! ## Callback bus (`core/src/lua.rs`)

A `LuaCallback` is `{ key: mlua::RegistryKey, once: bool }`; registry keys are
embedded as naturals, and the set of keys currently alive in the interpreter's
registry (`lua.registry_value` succeeds exactly on these) is carried in the
scripting state. Whether calling the function stored under a given key raises
a Lua error is a parameter (`raises`). -/

structure LuaCallback where
  key : Nat
  once : Bool
deriving DecidableEq, Repr

structure Scripting where
  callbacks : List (String × List LuaCallback)
  luaRegistry : List Nat
  logs : List String
deriving DecidableEq, Repr

/-- The log line pushed when a callback raises (`push_log` in `invoke_callbacks`). -/
def luaErrorLog (event : String) : String :=
  "[Lua] Error in '" ++ event ++ "' callback"

/-- The enumerated pass over the subscriber list in `invoke_callbacks`:
for each `(i, cb)`, if the registry value resolves, call it (logging an error
if it raises) and mark index `i` for removal when `cb.once`.
Returns `(logs, called keys, to_remove indices)`. -/
def invokePass (raises : Nat → Bool) (reg : List Nat) (event : String) :
    List LuaCallback → Nat → List String × List Nat × List Nat
  | [], _ => ([], [], [])
  | cb :: rest, i =>
    let r := invokePass raises reg event rest (i + 1)
    if cb.key ∈ reg then
      ((if raises cb.key then [luaErrorLog event] else []) ++ r.1,
       cb.key :: r.2.1,
       (if cb.once then [i] else []) ++ r.2.2)
    else r

/-- Ascending indices (counting from `i`) of the once-flagged callbacks;
this is what the `to_remove` accumulator of `invoke_callbacks` holds when
every registry key resolves. -/
def onceIdxs : List LuaCallback → Nat → List Nat
  | [], _ => []
  | cb :: rest, i => (if cb.once then [i] else []) ++ onceIdxs rest (i + 1)

/-- `for i in to_remove { let removed = callbacks.remove(i); ... }`:
remove the given indices in the given order, collecting the removed
callbacks' registry keys (passed to `remove_registry_value`). -/
def removeAll (cbs : List LuaCallback) : List Nat → List LuaCallback × List Nat
  | [] => (cbs, [])
  | i :: rest =>
    let removedKey := (cbs.get? i).map LuaCallback.key
    let r := removeAll (cbs.eraseIdx i) rest
    (r.1, removedKey.toList ++ r.2)

/-- `lua::invoke_callbacks`: call every subscriber of `event` in order,
log raising subscribers, then remove once-subscribers in reverse index
order (dropping their registry keys) and prune the event key when the
list empties. Also returns the list of called registry keys. -/
def invokeCallbacks (raises : Nat → Bool) (sc : Scripting) (event : String) :
    Scripting × List Nat :=
  match mapLookup sc.callbacks event with
  | none => (sc, [])
  | some callbacks =>
    let pass := invokePass raises sc.luaRegistry event callbacks 0
    let rem := removeAll callbacks pass.2.2.reverse
    let callbacksAfter :=
      if rem.1.isEmpty then mapRemove sc.callbacks event
      else mapInsert sc.callbacks event rem.1
    ({ callbacks := callbacksAfter,
       luaRegistry := sc.luaRegistry.filter (fun k => !(rem.2.contains k)),
       logs := sc.logs ++ pass.1 },
     pass.2.1)

/-- `lua::has_callbacks`: `cbs.get(event).is_some_and(|v| !v.is_empty())`. -/
def hasCallbacks (sc : Scripting) (event : String) : Bool :=
  match mapLookup sc.callbacks event with
  | some v => !v.isEmpty
  | none => false

/-- The subscriber list currently registered for an event (empty when absent). -/
def cbsOf (sc : Scripting) (event : String) : List LuaCallback :=
  (mapLookup sc.callbacks event).getD []

/-! ## Typed argument list (`utils::variant::VariantList`)

Modelled from the spec: `utils/variant.rs` is not part of the material; the
spec's data model gives the tagged union (text, float, u32, i32, vec2, vec3,
unrecognized placeholder) and states that a strongly-typed accessor aborts
the process on a tag mismatch. Floats are kept abstract in a type
parameter `F`. Byte-level decoding is a pass-through contract, so the
dispatcher is given the already-decoded list. -/

inductive Variant (F : Type) where
  | str (s : String)
  | flt (x : F)
  | unsigned (u : Nat)
  | signed (i : Int)
  | vec2 (x y : F)
  | vec3 (x y z : F)
  | unknown
deriving DecidableEq, Repr

/-- Modelled from the spec: `as_string` accessor, aborting on tag mismatch. -/
def Variant.as_string {F : Type} : Variant F → Except String String
  | .str s => Except.ok s
  | _ => Except.error "panic: variant tag mismatch: expected String"

/-- Modelled from the spec: `as_int32` accessor, aborting on tag mismatch. -/
def Variant.as_int32 {F : Type} : Variant F → Except String Int
  | .signed i => Except.ok i
  | _ => Except.error "panic: variant tag mismatch: expected Signed"

/-- Modelled from the spec: `as_uint32` accessor, aborting on tag mismatch. -/
def Variant.as_uint32 {F : Type} : Variant F → Except String Nat
  | .unsigned u => Except.ok u
  | _ => Except.error "panic: variant tag mismatch: expected Unsigned"

/-- Modelled from the spec: `as_vec2` accessor, aborting on tag mismatch. -/
def Variant.as_vec2 {F : Type} : Variant F → Except String (F × F)
  | .vec2 x y => Except.ok (x, y)
  | _ => Except.error "panic: variant tag mismatch: expected Vec2"

/-! ## Session data model -/

/-- `types::status::PeerStatus` (the four connection phases; the variant
names appear verbatim in the `status` field getter in `types/bot.rs`). -/
inductive PeerStatus where
  | FetchingServerData
  | ConnectingToServer
  | InGame
  | InWorld
deriving DecidableEq, Repr

/-- Modelled from the spec: `types/net_message.rs` is not part of the
material; only the `GenericText` message type is used by the dispatcher. -/
inductive NetMessage where
  | GenericText
deriving DecidableEq, Repr

/-- Item-database record, the five-field shape exposed by `getItemInfo`
(`gtitem_r` is an external collaborator per the spec). -/
structure Item where
  id : Nat
  name : String
  rarity : Nat
  collision_type : Nat
  action_type : Nat
deriving DecidableEq, Repr

/-- The item database: lookup by numeric id (`db.get_item(&id)`). -/
abbrev ItemDatabase := List (Nat × Item)

/-- `types::player::Player`, with the fields and names used by the `OnSpawn`
construction in `variant_handler.rs` (the declaring file is not part of the
material; integer widths are modelled as `Nat`, positions as abstract `F`). -/
structure Player (F : Type) where
  _type : String
  avatar : String
  net_id : Nat
  online_id : String
  e_id : String
  ip : String
  col_rect : String
  title_icon : String
  m_state : Nat
  user_id : Nat
  invisible : Bool
  name : String
  country : String
  position : F × F
deriving DecidableEq, Repr

/-- `types::bot::LuaPlayer`, the read-only player view handed to scripts. -/
structure LuaPlayer (F : Type) where
  name : String
  net_id : Nat
  user_id : Nat
  country : String
  pos_x : F
  pos_y : F
  invisible : Bool
  is_mod : Bool
deriving DecidableEq, Repr

/-- The `LuaPlayer` literal constructed from a `Player` (as in the
`onPlayerJoin` fan-out and the world player views in `types/bot.rs`). -/
def luaPlayerOf {F : Type} (p : Player F) : LuaPlayer F :=
  { name := p.name
    net_id := p.net_id
    user_id := p.user_id
    country := p.country
    pos_x := p.position.1
    pos_y := p.position.2
    invisible := p.invisible
    is_mod := p.m_state == 1 }

/-- Pending redirect target (`server` / `port` fields mutated by
`OnSendToServer`); modelled from the spec's AuthState. -/
structure ServerData where
  server : String
  port : Nat
deriving DecidableEq, Repr

/-- Login info mutated by `OnSendToServer` / `SetHasGrowID`; modelled from
the spec's AuthState (fields named as in `variant_handler.rs`). -/
structure LoginInfo where
  token : String
  user : String
  door_id : String
  uuid : String
  aat : String
  tank_id_name : String
deriving DecidableEq, Repr

/-- Arguments carried by a callback fan-out, one constructor per event
channel invoked by the dispatcher. -/
inductive CbArgs (F : Type) where
  | variantTable (vs : List (Variant F))
  | pos (x y : F)
  | chat (netId : Int) (msg : String)
  | console (msg : String)
  | playerLeave (netId : Nat)
  | playerJoin (p : LuaPlayer F)
  | dialog (msg : String)
deriving DecidableEq, Repr

/-- Observable side effects emitted by one `handle` call, in order.
A `fanout` records the event name, the arguments, the player registry as
the subscribers observe it at that moment, and the registry keys of the
subscriber functions actually called. -/
inductive Effect (F : Type) where
  | sendTextPacket (msgType : NetMessage) (payload : String)
  | fanout (event : String) (args : CbArgs F)
      (playersAtCall : List (Nat × Player F)) (calledKeys : List Nat)
  | disconnect
  | leaveWorld
  | nativeDialogCallback
deriving DecidableEq, Repr

/-- The slice of `Bot` session state read or written by the dispatcher
(per-subsystem locks collapse to plain fields in this sequential model). -/
structure BotState (F : Type) where
  peerStatus : PeerStatus
  redirecting : Bool
  itemsDatFile : Option (List Nat)
  itemDatabase : ItemDatabase
  players : List (Nat × Player F)
  netId : Nat
  userId : Nat
  gems : Int
  serverData : Option ServerData
  loginInfo : Option LoginInfo
  position : F × F
  scripting : Scripting
  dialogCallbackSet : Bool
deriving Repr

/-- External primitives the dispatcher depends on: Rust numeric/float string
parsing (`str::parse`), `utils::proton::hash` with `FixedLength` mode cast to
`u32` (its source is not part of the material, so it stays abstract),
`gtitem_r::load_from_file` applied to the cached `items.dat` bytes, whether
the Lua function stored under a registry key raises when called, and the
float zero literal. -/
structure Prims (F : Type) where
  parseNat : String → Option Nat
  parseF32 : String → Option F
  protonHash : List Nat → Nat
  loadItemsDat : List Nat → Option ItemDatabase
  callRaises : Nat → Bool
  zero : F

/-! ## Text-block parser (`variant_handler.rs`, `parse_and_store_as_map`) -/

/-- `str::lines`: split on newline; every segment that was terminated by a
newline loses one trailing carriage return (the `\r\n` ending); the final
segment is dropped when empty (trailing-newline or empty input) and is kept
verbatim otherwise (no terminator, so no `\r` stripping). -/
def rustLines (s : String) : List String :=
  match (s.data.splitOn '\n').reverse with
  | [] => []
  | last :: revInit =>
    let init := revInit.reverse.map
      (fun l => if l.getLast? = some '\r' then l.dropLast else l)
    (init ++ (if last = [] then [] else [last])).map String.mk

/-- `parse_and_store_as_map`: for each line, split on `|`; lines with at
least two segments map their first segment to the rest re-joined with `|`;
`HashMap::insert` makes the last occurrence of a key win. -/
def parse_and_store_as_map (input : String) : List (String × String) :=
  (rustLines input).foldl
    (fun map line =>
      match rsplitChar '|' line with
      | key :: v :: rest => mapInsert map key (joinSep "|" (v :: rest))
      | _ => map)
    []

/-- Claim-side reference description of one text-block record: a line of
the form `key|segment|…` contributes, for key `k`, the remaining segments
re-joined with `|`; other lines contribute nothing. -/
def recordValueFor (k : String) (line : String) : Option String :=
  match rsplitChar '|' line with
  | key :: v :: rest => if key = k then some (joinSep "|" (v :: rest)) else none
  | _ => none

/-! ## Event dispatcher (`variant_handler.rs`, `handle`) -/

/-- The generic `onVariant` tap at the top of `handle`: when subscribers
exist, convert the variant list to a Lua table and fan it out; otherwise
skip the conversion entirely. -/
def onVariantTap {F : Type} (P : Prims F) (st : BotState F) (variant : List (Variant F)) :
    BotState F × List (Effect F) :=
  if hasCallbacks st.scripting "onVariant" then
    let r := invokeCallbacks P.callRaises st.scripting "onVariant"
    ({ st with scripting := r.1 },
     [Effect.fanout "onVariant" (CbArgs.variantTable variant) st.players r.2])
  else (st, [])

/-- `lua::invoke_callbacks` as used inside the dispatcher: update the
scripting state and record the fan-out (with the player registry as
observed by the subscribers at this moment). -/
def fireCallbacks {F : Type} (P : Prims F) (st : BotState F) (event : String)
    (args : CbArgs F) : BotState F × Effect F :=
  let r := invokeCallbacks P.callRaises st.scripting event
  ({ st with scripting := r.1 }, Effect.fanout event args st.players r.2)

/-- Two's-complement truncation `as u16` applied to an `i32` value. -/
def toU16 (i : Int) : Nat := (i % 65536).toNat

/-- The `"OnSendToServer"` arm: parse redirect target and auth identifiers,
set the redirecting flag, disconnect. -/
def handleOnSendToServer {F : Type} (_P : Prims F) (st : BotState F)
    (tr : List (Effect F)) (variant : List (Variant F)) :
    Except String (BotState F × List (Effect F)) := do
  let port ← (← unwrapOpt (variant.get? 1)).as_int32
  let token ← (← unwrapOpt (variant.get? 2)).as_int32
  let user_id ← (← unwrapOpt (variant.get? 3)).as_int32
  let server_data ← (← unwrapOpt (variant.get? 4)).as_string
  let parsed_server_data := (rsplitChar '|' server_data).map rtrimEnd
  let aat ← (← unwrapOpt (variant.get? 5)).as_int32
  let sd ← unwrapOpt st.serverData
  let sdServer ← listIndex parsed_server_data 0
  let sd := { sd with server := sdServer, port := toU16 port }
  let li ← unwrapOpt st.loginInfo
  let liDoor ← listIndex parsed_server_data 1
  let liUuid ← listIndex parsed_server_data 2
  let li := { li with
    token := toString token
    user := toString user_id
    door_id := liDoor
    uuid := liUuid
    aat := toString aat }
  Except.ok
    ({ st with serverData := some sd, redirecting := true, loginInfo := some li },
     tr ++ [Effect.disconnect])

/-- The event name of the logon-accept checksum gate. -/
def logonGateEvent : String := "OnSuperMainStartAcceptLogonHrdxs47254722215a"

/-- The logon-accept checksum-gate arm: hash the cached `items.dat`; on a
match send `enter_game`, clear the redirecting flag, swap in the freshly
loaded item database and move to `InGame`; on mismatch or missing file
request fresh item data. -/
def handleLogonGate {F : Type} (P : Prims F) (st : BotState F)
    (tr : List (Effect F)) (variant : List (Variant F)) :
    Except String (BotState F × List (Effect F)) := do
  let server_hash ← (← unwrapOpt (variant.get? 1)).as_uint32
  match st.itemsDatFile with
  | some data =>
    if P.protonHash data = server_hash then do
      let tr := tr ++ [Effect.sendTextPacket NetMessage.GenericText "action|enter_game\n"]
      let st := { st with redirecting := false }
      let item_database ← expectOpt "Failed to load items.dat" (P.loadItemsDat data)
      Except.ok
        ({ st with itemDatabase := item_database, peerStatus := PeerStatus.InGame }, tr)
    else
      Except.ok
        (st, tr ++ [Effect.sendTextPacket NetMessage.GenericText "action|refresh_item_data\n"])
  | none =>
    Except.ok
      (st, tr ++ [Effect.sendTextPacket NetMessage.GenericText "action|refresh_item_data\n"])

/-- The `"OnRemove"` arm: parse the text block, remove the entry under its
`netID` from the player registry, then fan out `onPlayerLeave` with that id. -/
def handleOnRemove {F : Type} (P : Prims F) (st : BotState F)
    (tr : List (Effect F)) (variant : List (Variant F)) :
    Except String (BotState F × List (Effect F)) := do
  let message ← (← unwrapOpt (variant.get? 1)).as_string
  let data := parse_and_store_as_map message
  let netIdStr ← mapIndex data "netID"
  let net_id ← unwrapOpt (P.parseNat netIdStr)
  let st := { st with players := mapRemove st.players net_id }
  let fc := fireCallbacks P st "onPlayerLeave" (CbArgs.playerLeave net_id)
  Except.ok (fc.1, tr ++ [fc.2])

/-- The `Player` struct literal built in the `OnSpawn` arm, field by field
in source order (each indexing / parse panic is an `Except.error`). -/
def mkSpawnPlayer {F : Type} (P : Prims F) (data : List (String × String)) :
    Except String (Player F) := do
  let ty := (mapLookup data "spawn").getD ""
  let avatar := (mapLookup data "avatar").getD ""
  let netIdStr ← mapIndex data "netID"
  let net_id ← expectOpt "Failed to parse netid" (P.parseNat netIdStr)
  let online_id := (mapLookup data "onlineID").getD ""
  let e_id ← mapIndex data "eid"
  let ip ← mapIndex data "ip"
  let col_rect ← mapIndex data "colrect"
  let title_icon := (mapLookup data "titleIcon").getD ""
  let mStateStr ← mapIndex data "mstate"
  let m_state ← expectOpt "Failed to parse mstate" (P.parseNat mStateStr)
  let userIdStr ← mapIndex data "userID"
  let user_id ← expectOpt "Failed to parse userid" (P.parseNat userIdStr)
  let invisNum ← expectOpt "Failed to parse invisible"
    (P.parseNat ((mapLookup data "invis").getD "0"))
  let name ← mapIndex data "name"
  let country ← mapIndex data "country"
  let position ←
    if mapContains data "posXY" then do
      let posStr ← unwrapOpt (mapLookup data "posXY")
      let pos_xy ← (rsplitChar '|' posStr).mapM
        (fun s => expectOpt "Fail to parse player coordinates" (P.parseF32 (rtrim s)))
      let x ← listIndex pos_xy 0
      let y ← listIndex pos_xy 1
      pure (x, y)
    else
      pure (P.zero, P.zero)
  Except.ok
    { _type := ty
      avatar := avatar
      net_id := net_id
      online_id := online_id
      e_id := e_id
      ip := ip
      col_rect := col_rect
      title_icon := title_icon
      m_state := m_state
      user_id := user_id
      invisible := invisNum != 0
      name := name
      country := country
      position := position }

/-- The `"OnSpawn"` arm: a text block carrying a `type` key is the
self-record (store ids into the runtime counters, do not touch the player
registry); otherwise build the `Player`, auto-leave on moderator/invisible,
fan out `onPlayerJoin` *before* inserting, then insert (overwriting). -/
def handleOnSpawn {F : Type} (P : Prims F) (st : BotState F)
    (tr : List (Effect F)) (variant : List (Variant F)) :
    Except String (BotState F × List (Effect F)) := do
  let message ← (← unwrapOpt (variant.get? 1)).as_string
  let data := parse_and_store_as_map message
  if mapContains data "type" then do
    let netIdStr ← unwrapOpt (mapLookup data "netID")
    let net_id ← expectOpt "Failed to parse netid" (P.parseNat netIdStr)
    let userIdStr ← unwrapOpt (mapLookup data "userID")
    let user_id ← expectOpt "Failed to parse userID" (P.parseNat userIdStr)
    Except.ok ({ st with netId := net_id, userId := user_id }, tr)
  else do
    let player ← mkSpawnPlayer P data
    let tr := if player.m_state == 1 || player.invisible then tr ++ [Effect.leaveWorld] else tr
    let fc := fireCallbacks P st "onPlayerJoin" (CbArgs.playerJoin (luaPlayerOf player))
    Except.ok
      ({ fc.1 with players := mapInsert fc.1.players player.net_id player },
       tr ++ [fc.2])

/-- The state and trace a non-self `OnSpawn` event produces (the else-branch
of `handleOnSpawn` with the constructed player `p`); used to characterize
the handler in the spawn lemmas. -/
def spawnResult {F : Type} (P : Prims F) (st : BotState F) (v : List (Variant F))
    (p : Player F) : BotState F × List (Effect F) :=
  let stT := onVariantTap P st v
  let tr := if p.m_state == 1 || p.invisible then stT.2 ++ [Effect.leaveWorld] else stT.2
  let fc := fireCallbacks P stT.1 "onPlayerJoin" (CbArgs.playerJoin (luaPlayerOf p))
  ({ fc.1 with players := mapInsert fc.1.players p.net_id p }, tr ++ [fc.2])

/-- The `"OnDialogRequest"` arm: fan out `onDialogRequest`, invoke the single
pending native dialog handler slot if set, and auto-acknowledge the Gazette
system dialog. -/
def handleOnDialogRequest {F : Type} (P : Prims F) (st : BotState F)
    (tr : List (Effect F)) (variant : List (Variant F)) :
    Except String (BotState F × List (Effect F)) := do
  let message ← (← unwrapOpt (variant.get? 1)).as_string
  let fc := fireCallbacks P st "onDialogRequest" (CbArgs.dialog message)
  let st := fc.1
  let tr := tr ++ [fc.2]
  let tr := if st.dialogCallbackSet then tr ++ [Effect.nativeDialogCallback] else tr
  let tr :=
    if containsSub message "Gazette" then
      tr ++ [Effect.sendTextPacket NetMessage.GenericText
        "action|dialog_return\ndialog_name|gazette\nbuttonClicked|banner\n"]
    else tr
  Except.ok (st, tr)

/-- The `match function_call` dispatch table of `handle`; unrecognized
events fall through untouched. -/
def dispatch {F : Type} (P : Prims F) (st : BotState F) (tr : List (Effect F))
    (function_call : String) (variant : List (Variant F)) :
    Except String (BotState F × List (Effect F)) :=
  match function_call with
  | "OnSendToServer" => handleOnSendToServer P st tr variant
  | "OnSuperMainStartAcceptLogonHrdxs47254722215a" => handleLogonGate P st tr variant
  | "OnSetPos" => do
    let pos ← (← unwrapOpt (variant.get? 1)).as_vec2
    let st := { st with position := pos }
    let fc := fireCallbacks P st "onSetPos" (CbArgs.pos pos.1 pos.2)
    Except.ok (fc.1, tr ++ [fc.2])
  | "OnTalkBubble" => do
    let net_id_val ← (← unwrapOpt (variant.get? 1)).as_int32
    let message ← (← unwrapOpt (variant.get? 2)).as_string
    let fc := fireCallbacks P st "onChat" (CbArgs.chat net_id_val message)
    Except.ok (fc.1, tr ++ [fc.2])
  | "OnConsoleMessage" => do
    let message ← (← unwrapOpt (variant.get? 1)).as_string
    let fc := fireCallbacks P st "onConsole" (CbArgs.console message)
    Except.ok (fc.1, tr ++ [fc.2])
  | "OnSetBux" => do
    let gems ← (← unwrapOpt (variant.get? 1)).as_int32
    Except.ok ({ st with gems := st.gems + gems }, tr)
  | "SetHasGrowID" => do
    let growid ← (← unwrapOpt (variant.get? 2)).as_string
    let li ← unwrapOpt st.loginInfo
    Except.ok ({ st with loginInfo := some { li with tank_id_name := growid } }, tr)
  | "OnRemove" => handleOnRemove P st tr variant
  | "OnSpawn" => handleOnSpawn P st tr variant
  | "OnDialogRequest" => handleOnDialogRequest P st tr variant
  | _ => Except.ok (st, tr)

/-- `variant_handler::handle`: deserialize (pass-through here), read the
event name from element 0, run the generic `onVariant` tap, then dispatch
on the event name. Returns the final session state and the ordered effects. -/
def handle {F : Type} (P : Prims F) (st : BotState F) (variant : List (Variant F)) :
    Except String (BotState F × List (Effect F)) := do
  let v0 ← unwrapOpt (variant.get? 0)
  let function_call ← v0.as_string
  let stTap := onVariantTap P st variant
  dispatch P stTap.1 stTap.2 function_call variant

/-! ## Outbound packet (`types/net_game_packet.rs`, `types/bot.rs`) -/

/-- `NetGamePacketData`, the fixed-layout outbound packet. The declaring
file is not part of the material; the field list and order are exactly
those copied in `LuaGamePacket::from_lua` (`types/bot.rs`), with the
widths of the spec's layout: one-byte and `u32` fields as `Nat`, signed
fields as `Int`, floats as abstract `F`. The type tag enum is modelled
by its byte value. -/
structure NetGamePacketData (F : Type) where
  _type : Nat
  object_type : Nat
  jump_count : Nat
  animation_type : Nat
  net_id : Nat
  target_net_id : Int
  flags : Nat
  float_variable : F
  value : Nat
  vector_x : F
  vector_y : F
  vector_x2 : F
  vector_y2 : F
  particle_rotation : F
  int_x : Int
  int_y : Int
  extended_data_length : Nat
deriving DecidableEq, Repr

/-- A Lua value in `GamePacket` position: either `GamePacket` userdata or
something else (whose type name feeds the conversion error). -/
inductive LuaValueGP (F : Type) where
  | userdata (pkt : NetGamePacketData F)
  | other (typeName : String)
deriving DecidableEq, Repr

/-- `LuaGamePacket::from_lua`: borrow the userdata and build a new packet
copying every field by value; non-userdata values raise a conversion error. -/
def LuaGamePacket.from_lua {F : Type} : LuaValueGP F → Except String (NetGamePacketData F)
  | .userdata pkt =>
    Except.ok
      { _type := pkt._type
        object_type := pkt.object_type
        jump_count := pkt.jump_count
        animation_type := pkt.animation_type
        net_id := pkt.net_id
        target_net_id := pkt.target_net_id
        flags := pkt.flags
        float_variable := pkt.float_variable
        value := pkt.value
        vector_x := pkt.vector_x
        vector_y := pkt.vector_y
        vector_x2 := pkt.vector_x2
        vector_y2 := pkt.vector_y2
        particle_rotation := pkt.particle_rotation
        int_x := pkt.int_x
        int_y := pkt.int_y
        extended_data_length := pkt.extended_data_length }
  | .other typeName =>
    Except.error ("error converting Lua " ++ typeName ++ " to GamePacket")

/-! ## World tile views (`types/bot.rs`, `LuaWorld` / `LuaTile`) -/

/-- Tile type discriminant of the external world-tile provider (`gtworld_r`):
per the spec it only needs to support the seed / lock tests. -/
inductive TileType where
  | Seed
  | Lock
  | Basic
deriving DecidableEq, Repr

/-- A world tile record as consumed by the tile views. -/
structure Tile where
  x : Nat
  y : Nat
  foreground_item_id : Nat
  background_item_id : Nat
  tile_type : TileType
deriving DecidableEq, Repr

/-- The world model held under `bot.world.data`. -/
structure World where
  name : String
  width : Nat
  height : Nat
  tiles : List Tile
deriving DecidableEq, Repr

/-- `World::get_tile` of the external provider, modelled from the spec:
coordinate lookup into the row-major tile grid, nothing when out of range. -/
def World.get_tile (w : World) (x y : Nat) : Option Tile :=
  if x < w.width ∧ y < w.height then w.tiles.get? (y * w.width + x) else none

/-- `types::bot::LuaTile`, the tile view handed to scripts. -/
structure LuaTile where
  x : Nat
  y : Nat
  foreground : Nat
  background : Nat
  collision_type : Nat
  is_seed : Bool
  has_lock : Bool
deriving DecidableEq, Repr

/-- The tile's collision type as computed in `getTile` / `getTiles`:
look the foreground item id up in the item database, defaulting to 0. -/
def collisionTypeOf (db : ItemDatabase) (foreground : Nat) : Nat :=
  ((mapLookup db foreground).map Item.collision_type).getD 0

/-- The `LuaTile` literal built in `getTile` / `getTiles`. -/
def mkLuaTile (db : ItemDatabase) (tile : Tile) : LuaTile :=
  { x := tile.x
    y := tile.y
    foreground := tile.foreground_item_id
    background := tile.background_item_id
    collision_type := collisionTypeOf db tile.foreground_item_id
    is_seed := tile.tile_type == TileType.Seed
    has_lock := tile.tile_type == TileType.Lock }

/-- `LuaWorld:getTile(x, y)`. -/
def LuaWorld.getTile (db : ItemDatabase) (w : World) (x y : Nat) : Option LuaTile :=
  (w.get_tile x y).map (mkLuaTile db)

/-- `LuaWorld:getTiles()`. -/
def LuaWorld.getTiles (db : ItemDatabase) (w : World) : List LuaTile :=
  w.tiles.map (mkLuaTile db)

/-- The `isCollidable` field getter of `LuaTile`:
`collision_type == 1 || collision_type == 6`. -/
def LuaTile.isCollidable (t : LuaTile) : Bool :=
  t.collision_type == 1 || t.collision_type == 6

/-! ## Concrete instances

Closed configurations used to evaluate the development on concrete inputs
(floats instantiated at `Int`). -/

/-- A digit-string parser standing in for `str::parse::<u32>` on plain
digit inputs, enough to evaluate concrete frames. -/
def parseNat0 (s : String) : Option Nat :=
  if s.data ≠ [] ∧ s.data.all Char.isDigit then
    some (s.data.foldl (fun n c => n * 10 + (c.toNat - '0'.toNat)) 0)
  else none

/-- A concrete primitive bundle: byte-sum hash, a one-item database loader,
and a Lua runtime where exactly the function under registry key 1 raises. -/
def P0 : Prims Int :=
  { parseNat := parseNat0
    parseF32 := fun _ => some 0
    protonHash := fun data => data.foldl (fun a b => a + b) 0 % 4294967296
    loadItemsDat := fun _ => some [(2, ⟨2, "Dirt", 1, 1, 0⟩)]
    callRaises := fun k => k == 1
    zero := 0 }

/-- A quiescent baseline session state. -/
def st0 : BotState Int :=
  { peerStatus := PeerStatus.ConnectingToServer
    redirecting := true
    itemsDatFile := some [1, 2, 3]
    itemDatabase := []
    players := []
    netId := 0
    userId := 0
    gems := 0
    serverData := none
    loginInfo := none
    position := (0, 0)
    scripting := { callbacks := [], luaRegistry := [], logs := [] }
    dialogCallbackSet := false }

/-- A scripting state with three subscribers on one event: a raising
once-subscriber, a persistent subscriber, and a quiet once-subscriber. -/
def sc1 : Scripting :=
  { callbacks := [("onChat", [⟨1, true⟩, ⟨2, false⟩, ⟨3, true⟩])]
    luaRegistry := [1, 2, 3]
    logs := [] }

/-- A scripting state holding only once-subscribers for one event. -/
def sc2 : Scripting :=
  { callbacks := [("onChat", [⟨1, true⟩, ⟨3, true⟩])]
    luaRegistry := [1, 3]
    logs := [] }

/-- A concrete non-self spawn text block (net id 7). -/
def msg0 : String :=
  "netID|7\neid|e1\nip|1.2.3.4\ncolrect|0|0|20|30\nmstate|0\nuserID|3\nname|Bob\ncountry|us"

/-- A second spawn text block with the same net id 7. -/
def msg1 : String :=
  "netID|7\neid|e2\nip|5.6.7.8\ncolrect|0|0|20|30\nmstate|0\nuserID|4\nname|Eve\ncountry|de"

/-- A self-record spawn text block (carries a `type` key). -/
def msgSelf : String := "type|local\nnetID|9\nuserID|12"

/-- A concrete non-self player record. -/
def player5 : Player Int :=
  { _type := ""
    avatar := ""
    net_id := 5
    online_id := ""
    e_id := "e5"
    ip := "ip5"
    col_rect := "0|0|20|30"
    title_icon := ""
    m_state := 0
    user_id := 1
    invisible := false
    name := "P"
    country := "us"
    position := (0, 0) }

/-- The baseline state with net id 5 present in the player registry. -/
def stP : BotState Int := { st0 with players := [(5, player5)] }

/-- The player record the spawn block `msg0` parses to under `P0`. -/
def spawnedPlayer0 : Player Int :=
  { _type := ""
    avatar := ""
    net_id := 7
    online_id := ""
    e_id := "e1"
    ip := "1.2.3.4"
    col_rect := "0|0|20|30"
    title_icon := ""
    m_state := 0
    user_id := 3
    invisible := false
    name := "Bob"
    country := "us"
    position := (0, 0) }

/-- A three-item database: collision types 1, 0 and 6. -/
def db0 : ItemDatabase :=
  [(2, ⟨2, "Dirt", 1, 1, 0⟩), (5, ⟨5, "Door", 1, 0, 0⟩), (9, ⟨9, "Bedrock", 2, 6, 0⟩)]

/-- A 2×2 world over `db0` (one foreground id absent from the database). -/
def world0 : World :=
  { name := "TEST"
    width := 2
    height := 2
    tiles :=
      [⟨0, 0, 2, 0, TileType.Basic⟩, ⟨1, 0, 5, 0, TileType.Basic⟩,
       ⟨0, 1, 9, 0, TileType.Seed⟩, ⟨1, 1, 7, 0, TileType.Basic⟩] }

/-! ## Association-map lemmas -/

theorem mapLookup_insert_self {K V : Type} [DecidableEq K] (m : List (K × V)) (k : K) (v : V) :
    mapLookup (mapInsert m k v) k = some v := by
  induction m with
  | nil => simp [mapInsert, mapLookup]
  | cons kv rest ih =>
    obtain ⟨k', v'⟩ := kv
    by_cases h : k' = k
    · simp [mapInsert, mapLookup, h]
    · simp [mapInsert, mapLookup, h, ih]

theorem mapLookup_insert_ne {K V : Type} [DecidableEq K] (m : List (K × V)) (k j : K) (v : V)
    (h : k ≠ j) : mapLookup (mapInsert m k v) j = mapLookup m j := by
  induction m with
  | nil => simp [mapInsert, mapLookup, h]
  | cons kv rest ih =>
    obtain ⟨k', v'⟩ := kv
    by_cases hk : k' = k
    · subst hk
      simp [mapInsert, mapLookup, h]
    · simp [mapInsert, mapLookup, hk, ih]

theorem mapLookup_remove_self {K V : Type} [DecidableEq K] (m : List (K × V)) (k : K) :
    mapLookup (mapRemove m k) k = none := by
  induction m with
  | nil => rfl
  | cons kv rest ih =>
    obtain ⟨k', v'⟩ := kv
    by_cases h : k' = k
    · simpa [mapRemove, mapLookup, h] using ih
    · simpa [mapRemove, mapLookup, h] using ih

theorem mapRemove_of_not_contains {K V : Type} [DecidableEq K] (m : List (K × V)) (k : K)
    (h : mapContains m k = false) : mapRemove m k = m := by
  induction m with
  | nil => rfl
  | cons kv rest ih =>
    obtain ⟨k', v'⟩ := kv
    by_cases hk : k' = k
    · simp [mapContains, mapLookup, hk] at h
    · have hc : mapContains rest k = false := by
        simpa [mapContains, mapLookup, hk] using h
      simp [mapRemove, hk, ih hc] at *
      simpa [mapRemove] using ih hc

/-! ## Callback-bus lemmas (`invoke_callbacks` / `has_callbacks`) -/

theorem invokePass_toRemove (raises : Nat → Bool) (reg : List Nat) (event : String)
    (cbs : List LuaCallback) (h : ∀ cb ∈ cbs, cb.key ∈ reg) (i : Nat) :
    (invokePass raises reg event cbs i).2.2 = onceIdxs cbs i := by
  induction cbs generalizing i with
  | nil => rfl
  | cons cb rest ih =>
    have hk : cb.key ∈ reg := h cb (List.mem_cons_self _ _)
    have hrest : ∀ c ∈ rest, c.key ∈ reg := fun c hc => h c (List.mem_cons_of_mem _ hc)
    simp [invokePass, onceIdxs, hk, ih hrest]

theorem invokePass_called (raises : Nat → Bool) (reg : List Nat) (event : String)
    (cbs : List LuaCallback) (h : ∀ cb ∈ cbs, cb.key ∈ reg) (i : Nat) :
    (invokePass raises reg event cbs i).2.1 = cbs.map LuaCallback.key := by
  induction cbs generalizing i with
  | nil => rfl
  | cons cb rest ih =>
    have hk : cb.key ∈ reg := h cb (List.mem_cons_self _ _)
    have hrest : ∀ c ∈ rest, c.key ∈ reg := fun c hc => h c (List.mem_cons_of_mem _ hc)
    simp [invokePass, hk, ih hrest]

theorem onceIdxs_succ (cbs : List LuaCallback) (i : Nat) :
    onceIdxs cbs (i + 1) = (onceIdxs cbs i).map (· + 1) := by
  induction cbs generalizing i with
  | nil => rfl
  | cons cb rest ih =>
    by_cases ho : cb.once <;> simp [onceIdxs, ho, ih]

theorem removeAll_shifted (cb : LuaCallback) (l : List LuaCallback) (is js : List Nat) :
    (removeAll (cb :: l) (is.map (· + 1) ++ js)).1 =
      (removeAll (cb :: (removeAll l is).1) js).1 := by
  induction is generalizing l with
  | nil => simp [removeAll]
  | cons i rest ih =>
    simp only [List.map_cons, List.cons_append, removeAll, List.eraseIdx_cons_succ]
    exact ih (l.eraseIdx i)

theorem removeAll_onceIdxs (cbs : List LuaCallback) :
    (removeAll cbs (onceIdxs cbs 0).reverse).1 = cbs.filter (fun cb => !cb.once) := by
  induction cbs with
  | nil => rfl
  | cons cb rest ih =>
    by_cases ho : cb.once
    · have h1 : onceIdxs (cb :: rest) 0 = 0 :: (onceIdxs rest 0).map (· + 1) := by
        simp [onceIdxs, ho, onceIdxs_succ]
      rw [h1, List.reverse_cons, ← List.map_reverse]
      rw [removeAll_shifted cb rest (onceIdxs rest 0).reverse [0]]
      rw [ih]
      simp [removeAll, List.filter_cons, ho]
    · have h1 : onceIdxs (cb :: rest) 0 = (onceIdxs rest 0).map (· + 1) := by
        simp [onceIdxs, ho, onceIdxs_succ]
      rw [h1, ← List.map_reverse]
      rw [← List.append_nil ((onceIdxs rest 0).reverse.map (· + 1))]
      rw [removeAll_shifted cb rest (onceIdxs rest 0).reverse []]
      rw [ih]
      simp [removeAll, List.filter_cons, ho]

theorem invokeCallbacks_lookup (raises : Nat → Bool) (sc : Scripting) (event : String)
    (h : ∀ cb ∈ cbsOf sc event, cb.key ∈ sc.luaRegistry) :
    mapLookup ((invokeCallbacks raises sc event).1).callbacks event =
      (if ((cbsOf sc event).filter (fun cb => !cb.once)).isEmpty = true then none
       else some ((cbsOf sc event).filter (fun cb => !cb.once))) := by
  unfold invokeCallbacks
  cases hl : mapLookup sc.callbacks event with
  | none => simp [cbsOf, hl]
  | some cbs =>
    have hcb : cbsOf sc event = cbs := by simp [cbsOf, hl]
    rw [hcb] at h ⊢
    simp only [hl]
    rw [invokePass_toRemove raises sc.luaRegistry event cbs h 0, removeAll_onceIdxs]
    by_cases he : (cbs.filter (fun cb => !cb.once)).isEmpty
    · simp [he, mapLookup_remove_self]
    · simp [he, mapLookup_insert_self]

/-! ## Claims about the callback bus -/

/-- C3: after `invoke(event, args)` on the callback bus, no once-flagged
subscriber that was registered for that event before the call remains
registered — including subscribers whose callback raised an error during
the pass — and if the removals empty the event's subscriber list, the
event key itself is removed from the registry. Stated for every registry
state, so in particular for 0, 1 and N subscribers. (The hypothesis says
all subscribers' registry keys are live in the interpreter registry, the
invariant the bus maintains.) -/
theorem c3_invoke_removes_once_subscribers (raises : Nat → Bool) (sc : Scripting)
    (event : String) (h : ∀ cb ∈ cbsOf sc event, cb.key ∈ sc.luaRegistry) :
    (∀ cb ∈ cbsOf (invokeCallbacks raises sc event).1 event, cb.once = false)
    ∧ (((cbsOf sc event).filter (fun cb => !cb.once)).isEmpty = true →
        mapLookup ((invokeCallbacks raises sc event).1).callbacks event = none) := by
  have hch := invokeCallbacks_lookup raises sc event h
  constructor
  · intro cb hcb
    unfold cbsOf at hcb
    rw [hch] at hcb
    by_cases he : ((cbsOf sc event).filter (fun cb => !cb.once)).isEmpty
    · simp [he] at hcb
    · simp only [he, if_false, Option.getD_some] at hcb
      have hmem := List.of_mem_filter hcb
      simpa using hmem
  · intro he
    rw [hch]
    simp [he]

/-- Witness for C3: a three-subscriber registry whose once-subscriber
under key 1 raises (`P0.callRaises 1 = true`). -/
theorem c3_invoke_removes_once_subscribers_witness :
    (∀ cb ∈ cbsOf (invokeCallbacks P0.callRaises sc1 "onChat").1 "onChat", cb.once = false)
    ∧ (((cbsOf sc1 "onChat").filter (fun cb => !cb.once)).isEmpty = true →
        mapLookup ((invokeCallbacks P0.callRaises sc1 "onChat").1).callbacks "onChat" = none) :=
  c3_invoke_removes_once_subscribers P0.callRaises sc1 "onChat" (by decide)

/-- C6: `hasSubscribers(event)` returns false iff an immediately subsequent
`invoke(event, …)` on the same registry state performs zero subscriber calls. -/
theorem c6_hasSubscribers_iff_invoke_calls (raises : Nat → Bool) (sc : Scripting)
    (event : String) (h : ∀ cb ∈ cbsOf sc event, cb.key ∈ sc.luaRegistry) :
    hasCallbacks sc event = false ↔ (invokeCallbacks raises sc event).2 = [] := by
  cases hl : mapLookup sc.callbacks event with
  | none => simp [hasCallbacks, invokeCallbacks, hl]
  | some cbs =>
    have hv : ∀ cb ∈ cbs, cb.key ∈ sc.luaRegistry := by
      intro cb hcb
      refine h cb ?_
      simp only [cbsOf, hl, Option.getD_some]
      exact hcb
    have hcalled : (invokeCallbacks raises sc event).2 = cbs.map LuaCallback.key := by
      simp only [invokeCallbacks, hl]
      exact invokePass_called raises sc.luaRegistry event cbs hv 0
    rw [hcalled]
    simp only [hasCallbacks, hl]
    cases cbs <;> simp

/-- Witness for C6 at a populated registry (both sides false). -/
theorem c6_hasSubscribers_iff_invoke_calls_witness :
    hasCallbacks sc1 "onChat" = false ↔ (invokeCallbacks P0.callRaises sc1 "onChat").2 = [] :=
  c6_hasSubscribers_iff_invoke_calls P0.callRaises sc1 "onChat" (by decide)

/-! ## Dispatcher reduction lemmas -/

theorem exceptBind_ok {α β : Type} (a : α) (f : α → Except String β) :
    (Except.ok a : Except String α) >>= f = f a := rfl

theorem exceptBind_err {α β : Type} (msg : String) (f : α → Except String β) :
    (Except.error msg : Except String α) >>= f = Except.error msg := rfl

theorem handle_str_event {F : Type} (P : Prims F) (st : BotState F) (fn : String)
    (rest : List (Variant F)) :
    handle P st (Variant.str fn :: rest) =
      dispatch P (onVariantTap P st (Variant.str fn :: rest)).1
        (onVariantTap P st (Variant.str fn :: rest)).2 fn (Variant.str fn :: rest) := rfl

theorem dispatch_logonGate {F : Type} (P : Prims F) (st : BotState F) (tr : List (Effect F))
    (v : List (Variant F)) :
    dispatch P st tr "OnSuperMainStartAcceptLogonHrdxs47254722215a" v =
      handleLogonGate P st tr v := rfl

theorem dispatch_onRemove {F : Type} (P : Prims F) (st : BotState F) (tr : List (Effect F))
    (v : List (Variant F)) :
    dispatch P st tr "OnRemove" v = handleOnRemove P st tr v := rfl

theorem dispatch_onSpawn {F : Type} (P : Prims F) (st : BotState F) (tr : List (Effect F))
    (v : List (Variant F)) :
    dispatch P st tr "OnSpawn" v = handleOnSpawn P st tr v := rfl

theorem onVariantTap_players {F : Type} (P : Prims F) (st : BotState F)
    (v : List (Variant F)) : (onVariantTap P st v).1.players = st.players := by
  unfold onVariantTap; split <;> rfl

theorem onVariantTap_peerStatus {F : Type} (P : Prims F) (st : BotState F)
    (v : List (Variant F)) : (onVariantTap P st v).1.peerStatus = st.peerStatus := by
  unfold onVariantTap; split <;> rfl

theorem onVariantTap_redirecting {F : Type} (P : Prims F) (st : BotState F)
    (v : List (Variant F)) : (onVariantTap P st v).1.redirecting = st.redirecting := by
  unfold onVariantTap; split <;> rfl

theorem onVariantTap_itemDatabase {F : Type} (P : Prims F) (st : BotState F)
    (v : List (Variant F)) : (onVariantTap P st v).1.itemDatabase = st.itemDatabase := by
  unfold onVariantTap; split <;> rfl

theorem onVariantTap_itemsDatFile {F : Type} (P : Prims F) (st : BotState F)
    (v : List (Variant F)) : (onVariantTap P st v).1.itemsDatFile = st.itemsDatFile := by
  unfold onVariantTap; split <;> rfl

theorem onVariantTap_effects {F : Type} (P : Prims F) (st : BotState F)
    (v : List (Variant F)) :
    ∀ e ∈ (onVariantTap P st v).2, ∃ a ps ks, e = Effect.fanout "onVariant" a ps ks := by
  unfold onVariantTap
  split
  · intro e he
    simp only [List.mem_singleton] at he
    exact ⟨_, _, _, he⟩
  · intro e he
    simp at he

theorem fireCallbacks_players {F : Type} (P : Prims F) (st : BotState F) (event : String)
    (args : CbArgs F) : (fireCallbacks P st event args).1.players = st.players := rfl

theorem fireCallbacks_netId {F : Type} (P : Prims F) (st : BotState F) (event : String)
    (args : CbArgs F) : (fireCallbacks P st event args).1.netId = st.netId := rfl

theorem fireCallbacks_snd {F : Type} (P : Prims F) (st : BotState F) (event : String)
    (args : CbArgs F) :
    (fireCallbacks P st event args).2 =
      Effect.fanout event args st.players (invokeCallbacks P.callRaises st.scripting event).2 :=
  rfl

theorem handleLogonGate_eq {F : Type} (P : Prims F) (st : BotState F) (tr : List (Effect F))
    (e : String) (serverHash : Nat) :
    handleLogonGate P st tr [Variant.str e, Variant.unsigned serverHash] =
      (match st.itemsDatFile with
       | some data =>
         if P.protonHash data = serverHash then
           match P.loadItemsDat data with
           | some db =>
             Except.ok ({ st with
                            redirecting := false
                            itemDatabase := db
                            peerStatus := PeerStatus.InGame },
               tr ++ [Effect.sendTextPacket NetMessage.GenericText "action|enter_game\n"])
           | none => Except.error "Failed to load items.dat"
         else
           Except.ok (st,
             tr ++ [Effect.sendTextPacket NetMessage.GenericText "action|refresh_item_data\n"])
       | none =>
         Except.ok (st,
           tr ++ [Effect.sendTextPacket NetMessage.GenericText "action|refresh_item_data\n"])) := by
  unfold handleLogonGate
  simp only [List.get?_cons_succ, List.get?_cons_zero, unwrapOpt, Variant.as_uint32,
    exceptBind_ok]
  cases hf : st.itemsDatFile with
  | none => rfl
  | some data =>
    by_cases hh : P.protonHash data = serverHash
    · simp only [if_pos hh]
      cases hl : P.loadItemsDat data with
      | none => simp [expectOpt, hl, exceptBind_err]
      | some db => simp [expectOpt, hl, exceptBind_ok]
    · simp only [if_neg hh]

/-! ## Claims about the logon checksum gate -/

/-- C1: for every logon-accept checksum event: if the hash of the locally
cached item-database file equals the server-supplied checksum, the
dispatcher sends the enter-game action, clears the redirecting flag, swaps
in the newly loaded item database, and sets the connection phase to
`InGame`; if the hash differs or the file is absent, the phase (and the
item database) is left unchanged and an item-data refresh request is sent
instead. -/
theorem c1_logon_checksum_gate {F : Type} (P : Prims F) (st : BotState F) (serverHash : Nat) :
    (∀ data db, st.itemsDatFile = some data → P.protonHash data = serverHash →
      P.loadItemsDat data = some db →
      ∃ st' tr,
        handle P st [Variant.str logonGateEvent, Variant.unsigned serverHash]
            = Except.ok (st', tr)
          ∧ st'.peerStatus = PeerStatus.InGame
          ∧ st'.redirecting = false
          ∧ st'.itemDatabase = db
          ∧ Effect.sendTextPacket NetMessage.GenericText "action|enter_game\n" ∈ tr
          ∧ Effect.sendTextPacket NetMessage.GenericText "action|refresh_item_data\n" ∉ tr)
    ∧ (∀ data, st.itemsDatFile = some data → P.protonHash data ≠ serverHash →
        ∃ st' tr,
          handle P st [Variant.str logonGateEvent, Variant.unsigned serverHash]
              = Except.ok (st', tr)
            ∧ st'.peerStatus = st.peerStatus
            ∧ st'.itemDatabase = st.itemDatabase
            ∧ Effect.sendTextPacket NetMessage.GenericText "action|refresh_item_data\n" ∈ tr
            ∧ Effect.sendTextPacket NetMessage.GenericText "action|enter_game\n" ∉ tr)
    ∧ (st.itemsDatFile = none →
        ∃ st' tr,
          handle P st [Variant.str logonGateEvent, Variant.unsigned serverHash]
              = Except.ok (st', tr)
            ∧ st'.peerStatus = st.peerStatus
            ∧ st'.itemDatabase = st.itemDatabase
            ∧ Effect.sendTextPacket NetMessage.GenericText "action|refresh_item_data\n" ∈ tr
            ∧ Effect.sendTextPacket NetMessage.GenericText "action|enter_game\n" ∉ tr) := by
  have hneRefresh :
      Effect.sendTextPacket NetMessage.GenericText "action|refresh_item_data\n"
        ∉ (onVariantTap P st
            [Variant.str logonGateEvent, Variant.unsigned serverHash]).2 := by
    intro hmem
    obtain ⟨a, ps, ks, he⟩ := onVariantTap_effects P st _ _ hmem
    simp at he
  have hneEnter :
      Effect.sendTextPacket NetMessage.GenericText "action|enter_game\n"
        ∉ (onVariantTap P st
            [Variant.str logonGateEvent, Variant.unsigned serverHash]).2 := by
    intro hmem
    obtain ⟨a, ps, ks, he⟩ := onVariantTap_effects P st _ _ hmem
    simp at he
  refine ⟨?_, ?_, ?_⟩
  · intro data db hfile hhash hload
    rw [handle_str_event]
    simp only [logonGateEvent] at *
    rw [dispatch_logonGate, handleLogonGate_eq, onVariantTap_itemsDatFile, hfile]
    simp only [if_pos hhash, hload]
    refine ⟨_, _, rfl, rfl, rfl, rfl, ?_, ?_⟩
    · exact List.mem_append_right _ (List.mem_singleton.mpr rfl)
    · intro hmem
      rcases List.mem_append.mp hmem with h1 | h2
      · exact hneRefresh h1
      · simp at h2
  · intro data hfile hhash
    rw [handle_str_event]
    simp only [logonGateEvent] at *
    rw [dispatch_logonGate, handleLogonGate_eq, onVariantTap_itemsDatFile, hfile]
    simp only [if_neg hhash]
    refine ⟨_, _, rfl, onVariantTap_peerStatus P st _, onVariantTap_itemDatabase P st _,
      ?_, ?_⟩
    · exact List.mem_append_right _ (List.mem_singleton.mpr rfl)
    · intro hmem
      rcases List.mem_append.mp hmem with h1 | h2
      · exact hneEnter h1
      · simp at h2
  · intro hfile
    rw [handle_str_event]
    simp only [logonGateEvent] at *
    rw [dispatch_logonGate, handleLogonGate_eq, onVariantTap_itemsDatFile, hfile]
    refine ⟨_, _, rfl, onVariantTap_peerStatus P st _, onVariantTap_itemDatabase P st _,
      ?_, ?_⟩
    · exact List.mem_append_right _ (List.mem_singleton.mpr rfl)
    · intro hmem
      rcases List.mem_append.mp hmem with h1 | h2
      · exact hneEnter h1
      · simp at h2

/-- Witness for C1's match branch: `P0`'s hash of the cached bytes
`[1, 2, 3]` is 6, matching the server checksum. -/
theorem c1_logon_checksum_gate_witness :
    ∃ st' tr,
      handle P0 st0 [Variant.str logonGateEvent, Variant.unsigned 6] = Except.ok (st', tr)
        ∧ st'.peerStatus = PeerStatus.InGame
        ∧ st'.redirecting = false
        ∧ st'.itemDatabase = [(2, ⟨2, "Dirt", 1, 1, 0⟩)]
        ∧ Effect.sendTextPacket NetMessage.GenericText "action|enter_game\n" ∈ tr
        ∧ Effect.sendTextPacket NetMessage.GenericText "action|refresh_item_data\n" ∉ tr :=
  (c1_logon_checksum_gate P0 st0 6).1 [1, 2, 3] [(2, ⟨2, "Dirt", 1, 1, 0⟩)]
    rfl (by decide) rfl

/-! ## Claims about player-leave events -/

/-- C7: for every player-leave event whose text block's network id is
absent from the player registry, the registry is unchanged (the removal is
a no-op), yet the leave notification is still fanned out carrying that
network id; for a present id, the entry is removed and the same
notification fires. -/
theorem c7_leave_absent_id (F : Type) (P : Prims F) (st : BotState F) (msg ns : String)
    (n : Nat) (hns : mapLookup (parse_and_store_as_map msg) "netID" = some ns)
    (hp : P.parseNat ns = some n) :
    ∃ st' tr,
      handle P st [Variant.str "OnRemove", Variant.str msg] = Except.ok (st', tr)
        ∧ st'.players = mapRemove st.players n
        ∧ (mapContains st.players n = false → st'.players = st.players)
        ∧ (∃ ps ks, Effect.fanout "onPlayerLeave" (CbArgs.playerLeave n) ps ks ∈ tr)
        ∧ (mapContains st.players n = true → mapLookup st'.players n = none) := by
  rw [handle_str_event, dispatch_onRemove]
  unfold handleOnRemove
  simp only [List.get?_cons_succ, List.get?_cons_zero, unwrapOpt, Variant.as_string,
    exceptBind_ok, mapIndex, hns, hp]
  rw [fireCallbacks_snd]
  refine ⟨_, _, rfl, ?_, ?_, ?_, ?_⟩
  · rw [fireCallbacks_players]
    simp [onVariantTap_players]
  · intro h
    rw [fireCallbacks_players]
    simp only [onVariantTap_players]
    exact mapRemove_of_not_contains st.players n h
  · exact ⟨_, _, List.mem_append_right _ (List.mem_singleton.mpr rfl)⟩
  · intro _
    rw [fireCallbacks_players]
    simp only [onVariantTap_players]
    exact mapLookup_remove_self st.players n

/-- Witness for C7 with net id 5 present in the registry (and, through the
absent-id conjunct, the no-op guarantee instantiated vacuously). -/
theorem c7_leave_absent_id_witness :
    ∃ st' tr,
      handle P0 stP [Variant.str "OnRemove", Variant.str "netID|5"] = Except.ok (st', tr)
        ∧ st'.players = mapRemove stP.players 5
        ∧ (mapContains stP.players 5 = false → st'.players = stP.players)
        ∧ (∃ ps ks, Effect.fanout "onPlayerLeave" (CbArgs.playerLeave 5) ps ks ∈ tr)
        ∧ (mapContains stP.players 5 = true → mapLookup st'.players 5 = none) :=
  c7_leave_absent_id Int P0 stP "netID|5" "5" 5 rfl (by decide)

/-! ## Spawn-handler reduction lemmas -/

theorem handle_spawn_nonself {F : Type} (P : Prims F) (st : BotState F) (msg : String)
    (p : Player F)
    (hty : mapContains (parse_and_store_as_map msg) "type" = false)
    (hmk : mkSpawnPlayer P (parse_and_store_as_map msg) = Except.ok p) :
    handle P st [Variant.str "OnSpawn", Variant.str msg] =
      Except.ok
        ((spawnResult P st [Variant.str "OnSpawn", Variant.str msg] p).1,
         (spawnResult P st [Variant.str "OnSpawn", Variant.str msg] p).2) := by
  rw [handle_str_event, dispatch_onSpawn]
  unfold handleOnSpawn
  simp only [List.get?_cons_succ, List.get?_cons_zero, unwrapOpt, Variant.as_string,
    exceptBind_ok, hty, hmk, Bool.false_eq_true, if_false]
  rfl

theorem handle_spawn_nonself_players {F : Type} (P : Prims F) (st : BotState F)
    (msg : String) (p : Player F) (st' : BotState F) (tr : List (Effect F))
    (hty : mapContains (parse_and_store_as_map msg) "type" = false)
    (hmk : mkSpawnPlayer P (parse_and_store_as_map msg) = Except.ok p)
    (h : handle P st [Variant.str "OnSpawn", Variant.str msg] = Except.ok (st', tr)) :
    st'.players = mapInsert st.players p.net_id p := by
  rw [handle_spawn_nonself P st msg p hty hmk] at h
  simp only [Except.ok.injEq, Prod.mk.injEq] at h
  rw [← h.1]
  simp [spawnResult, fireCallbacks_players, onVariantTap_players]

theorem handle_spawn_self_eq {F : Type} (P : Prims F) (st : BotState F) (msg ns us : String)
    (n u : Nat)
    (hty : mapContains (parse_and_store_as_map msg) "type" = true)
    (hns : mapLookup (parse_and_store_as_map msg) "netID" = some ns)
    (hpn : P.parseNat ns = some n)
    (hus : mapLookup (parse_and_store_as_map msg) "userID" = some us)
    (hpu : P.parseNat us = some u) :
    handle P st [Variant.str "OnSpawn", Variant.str msg] =
      Except.ok
        ({ (onVariantTap P st [Variant.str "OnSpawn", Variant.str msg]).1 with
             netId := n
             userId := u },
         (onVariantTap P st [Variant.str "OnSpawn", Variant.str msg]).2) := by
  rw [handle_str_event, dispatch_onSpawn]
  unfold handleOnSpawn
  simp only [List.get?_cons_succ, List.get?_cons_zero, unwrapOpt, Variant.as_string,
    exceptBind_ok, hty, if_true, hns, hpn, hus, hpu, expectOpt]

theorem handle_spawn_self_players {F : Type} (P : Prims F) (st : BotState F) (msg : String)
    (hty : mapContains (parse_and_store_as_map msg) "type" = true) :
    ∀ st' tr, handle P st [Variant.str "OnSpawn", Variant.str msg] = Except.ok (st', tr) →
      st'.players = st.players := by
  intro st' tr h
  rw [handle_str_event, dispatch_onSpawn] at h
  unfold handleOnSpawn at h
  simp only [List.get?_cons_succ, List.get?_cons_zero, unwrapOpt, Variant.as_string,
    exceptBind_ok, hty, if_true] at h
  cases h1 : mapLookup (parse_and_store_as_map msg) "netID" with
  | none => rw [h1] at h; simp [unwrapOpt, exceptBind_err] at h
  | some ns =>
    rw [h1] at h
    simp only [unwrapOpt, exceptBind_ok] at h
    cases h2 : P.parseNat ns with
    | none => rw [h2] at h; simp [expectOpt, exceptBind_err] at h
    | some n =>
      rw [h2] at h
      simp only [expectOpt, exceptBind_ok] at h
      cases h3 : mapLookup (parse_and_store_as_map msg) "userID" with
      | none => rw [h3] at h; simp [unwrapOpt, exceptBind_err] at h
      | some us =>
        rw [h3] at h
        simp only [unwrapOpt, exceptBind_ok] at h
        cases h4 : P.parseNat us with
        | none => rw [h4] at h; simp [expectOpt, exceptBind_err] at h
        | some u =>
          rw [h4] at h
          simp only [expectOpt, exceptBind_ok, Except.ok.injEq, Prod.mk.injEq] at h
          rw [← h.1]
          simp [onVariantTap_players]

/-! ## Claims about player-spawn events -/

/-- C4: for every spawn event: if its text block carries a `type` key the
parsed record is never inserted into the player registry (its network id
and user id are instead stored into the runtime counters); any other spawn
event results in the constructed `Player` being present in the registry
under its network id, and a second spawn event with the same network id
overwrites the first entry. -/
theorem c4_spawn_registry (F : Type) (P : Prims F) (st : BotState F) (msg : String) :
    (mapContains (parse_and_store_as_map msg) "type" = true →
      ∀ st' tr, handle P st [Variant.str "OnSpawn", Variant.str msg] = Except.ok (st', tr) →
        st'.players = st.players)
    ∧ (∀ ns n us u, mapContains (parse_and_store_as_map msg) "type" = true →
        mapLookup (parse_and_store_as_map msg) "netID" = some ns →
        P.parseNat ns = some n →
        mapLookup (parse_and_store_as_map msg) "userID" = some us →
        P.parseNat us = some u →
        ∃ st' tr, handle P st [Variant.str "OnSpawn", Variant.str msg] = Except.ok (st', tr)
          ∧ st'.players = st.players ∧ st'.netId = n ∧ st'.userId = u)
    ∧ (∀ p, mapContains (parse_and_store_as_map msg) "type" = false →
        mkSpawnPlayer P (parse_and_store_as_map msg) = Except.ok p →
        ∀ st' tr, handle P st [Variant.str "OnSpawn", Variant.str msg] = Except.ok (st', tr) →
          st'.players = mapInsert st.players p.net_id p
          ∧ mapLookup st'.players p.net_id = some p)
    ∧ (∀ msg2 p p2 st1 tr1 st2 tr2,
        mapContains (parse_and_store_as_map msg) "type" = false →
        mkSpawnPlayer P (parse_and_store_as_map msg) = Except.ok p →
        mapContains (parse_and_store_as_map msg2) "type" = false →
        mkSpawnPlayer P (parse_and_store_as_map msg2) = Except.ok p2 →
        p2.net_id = p.net_id →
        handle P st [Variant.str "OnSpawn", Variant.str msg] = Except.ok (st1, tr1) →
        handle P st1 [Variant.str "OnSpawn", Variant.str msg2] = Except.ok (st2, tr2) →
        mapLookup st2.players p.net_id = some p2) := by
  refine ⟨?_, ?_, ?_, ?_⟩
  · intro hty st' tr h
    exact handle_spawn_self_players P st msg hty st' tr h
  · intro ns n us u hty hns hpn hus hpu
    refine ⟨_, _, handle_spawn_self_eq P st msg ns us n u hty hns hpn hus hpu, ?_, rfl, rfl⟩
    simp [onVariantTap_players]
  · intro p hty hmk st' tr h
    have hpl := handle_spawn_nonself_players P st msg p st' tr hty hmk h
    exact ⟨hpl, by rw [hpl]; exact mapLookup_insert_self st.players p.net_id p⟩
  · intro msg2 p p2 st1 tr1 st2 tr2 hty1 hmk1 hty2 hmk2 hnet h1 h2
    have hpl2 := handle_spawn_nonself_players P st1 msg2 p2 st2 tr2 hty2 hmk2 h2
    rw [hpl2, ← hnet]
    exact mapLookup_insert_self st1.players p2.net_id p2

/-- Witness for C4's non-self branch: the spawn block `msg0` (net id 7)
handled from the empty registry. -/
theorem c4_spawn_registry_witness :
    ∃ st' tr, handle P0 st0 [Variant.str "OnSpawn", Variant.str msg0] = Except.ok (st', tr)
        ∧ (st'.players = mapInsert st0.players spawnedPlayer0.net_id spawnedPlayer0
           ∧ mapLookup st'.players spawnedPlayer0.net_id = some spawnedPlayer0) :=
  ⟨_, _, handle_spawn_nonself P0 st0 msg0 spawnedPlayer0 (by decide) rfl,
    (c4_spawn_registry Int P0 st0 msg0).2.2.1 spawnedPlayer0 (by decide) rfl _ _
      (handle_spawn_nonself P0 st0 msg0 spawnedPlayer0 (by decide) rfl)⟩

/-- C8: for every non-self spawn event, the join notification carrying the
constructed `Player` is fanned out to subscribers strictly before that
`Player` is inserted into the player registry: the fan-out effect records
the registry exactly as it was before the insertion (`st.players`), and
only the final state carries the inserted entry. -/
theorem c8_join_fanout_before_insert (F : Type) (P : Prims F) (st : BotState F)
    (msg : String) (p : Player F)
    (hty : mapContains (parse_and_store_as_map msg) "type" = false)
    (hmk : mkSpawnPlayer P (parse_and_store_as_map msg) = Except.ok p) :
    ∃ st' tr ks,
      handle P st [Variant.str "OnSpawn", Variant.str msg] = Except.ok (st', tr)
        ∧ Effect.fanout "onPlayerJoin" (CbArgs.playerJoin (luaPlayerOf p)) st.players ks ∈ tr
        ∧ st'.players = mapInsert st.players p.net_id p := by
  have hm :
      (fireCallbacks P (onVariantTap P st [Variant.str "OnSpawn", Variant.str msg]).1
          "onPlayerJoin" (CbArgs.playerJoin (luaPlayerOf p))).2
        ∈ (spawnResult P st [Variant.str "OnSpawn", Variant.str msg] p).2 := by
    simp [spawnResult]
  rw [fireCallbacks_snd, onVariantTap_players] at hm
  exact ⟨_, _, _, handle_spawn_nonself P st msg p hty hmk, hm,
    by simp [spawnResult, fireCallbacks_players, onVariantTap_players]⟩

/-- Witness for C8 at the concrete spawn block `msg0`. -/
theorem c8_join_fanout_before_insert_witness :
    ∃ st' tr ks,
      handle P0 st0 [Variant.str "OnSpawn", Variant.str msg0] = Except.ok (st', tr)
        ∧ Effect.fanout "onPlayerJoin" (CbArgs.playerJoin (luaPlayerOf spawnedPlayer0))
            st0.players ks ∈ tr
        ∧ st'.players = mapInsert st0.players spawnedPlayer0.net_id spawnedPlayer0 :=
  c8_join_fanout_before_insert Int P0 st0 msg0 spawnedPlayer0 (by decide) rfl

/-! ## Claim about error handling of malformed events -/

/-- C2 (recording the code defect): a recognized event whose expected field
is missing is not dropped — the dispatcher hits the panicking map index and
aborts. Evaluated at the failing input: an `OnRemove` frame whose text block
`"foo|bar"` has no `netID` key. -/
theorem c2_malformed_event_aborts :
    handle P0 st0 [Variant.str "OnRemove", Variant.str "foo|bar"]
      = Except.error "panic: key not found in map" := rfl

/-! ## Claim about the outbound-packet copy -/

/-- C5: constructing an `OutboundPacket` (GamePacket) and then copying it
field-by-field from the existing instance yields a packet whose every
field — type tag, object type, jump count, animation type, network id,
target network id, flags, float variable, value, both vectors, particle
rotation, integer pair, and extended-data length — equals the original's
exactly. -/
theorem c5_packet_copy_roundtrip (F : Type) (p : NetGamePacketData F) :
    ∃ q, LuaGamePacket.from_lua (LuaValueGP.userdata p) = Except.ok q
      ∧ q._type = p._type
      ∧ q.object_type = p.object_type
      ∧ q.jump_count = p.jump_count
      ∧ q.animation_type = p.animation_type
      ∧ q.net_id = p.net_id
      ∧ q.target_net_id = p.target_net_id
      ∧ q.flags = p.flags
      ∧ q.float_variable = p.float_variable
      ∧ q.value = p.value
      ∧ q.vector_x = p.vector_x
      ∧ q.vector_y = p.vector_y
      ∧ q.vector_x2 = p.vector_x2
      ∧ q.vector_y2 = p.vector_y2
      ∧ q.particle_rotation = p.particle_rotation
      ∧ q.int_x = p.int_x
      ∧ q.int_y = p.int_y
      ∧ q.extended_data_length = p.extended_data_length :=
  ⟨p, rfl, rfl, rfl, rfl, rfl, rfl, rfl, rfl, rfl, rfl, rfl, rfl, rfl, rfl, rfl, rfl, rfl,
    rfl⟩

/-! ## Claim about the shared text-block parser -/

theorem getLast?_cons_match {α : Type} (a : α) (l : List α) :
    (a :: l).getLast? =
      (match l.getLast? with
       | some v => some v
       | none => some a) := by
  cases hl : l.getLast? with
  | none =>
    have : l = [] := by simpa using hl
    subst this
    rfl
  | some v =>
    cases l with
    | nil => simp at hl
    | cons b t =>
      rw [List.getLast?_cons_cons, hl]

theorem parse_fold_lookup (lines : List String) (acc : List (String × String)) (k : String) :
    mapLookup
      (lines.foldl
        (fun map line =>
          match rsplitChar '|' line with
          | key :: v :: rest => mapInsert map key (joinSep "|" (v :: rest))
          | _ => map)
        acc) k =
      (match (lines.filterMap (recordValueFor k)).getLast? with
       | some v => some v
       | none => mapLookup acc k) := by
  induction lines generalizing acc with
  | nil => rfl
  | cons line rest ih =>
    rw [List.foldl_cons, List.filterMap_cons]
    cases hs : rsplitChar '|' line with
    | nil =>
      have hr : recordValueFor k line = none := by simp [recordValueFor, hs]
      simp only [hs, hr]
      exact ih acc
    | cons key tl =>
      cases tl with
      | nil =>
        have hr : recordValueFor k line = none := by simp [recordValueFor, hs]
        simp only [hs, hr]
        exact ih acc
      | cons v rest2 =>
        by_cases hk : key = k
        · have hr : recordValueFor k line = some (joinSep "|" (v :: rest2)) := by
            simp [recordValueFor, hs, hk]
          simp only [hs, hr]
          rw [ih (mapInsert acc key (joinSep "|" (v :: rest2)))]
          rw [getLast?_cons_match]
          cases hlast : (rest.filterMap (recordValueFor k)).getLast? with
          | none =>
            subst hk
            simp [mapLookup_insert_self]
          | some w => simp
        · have hr : recordValueFor k line = none := by simp [recordValueFor, hs, hk]
          simp only [hs, hr]
          rw [ih (mapInsert acc key (joinSep "|" (v :: rest2)))]
          rw [mapLookup_insert_ne acc key k (joinSep "|" (v :: rest2)) hk]

/-- C9: for every input string to the shared text-block parser, the result
maps each newline-separated record of the form `key|segment|…` to its key
with the remaining pipe-delimited segments re-joined with `|` as the value,
and when two records share a key the last occurrence's value wins: looking
up any key yields exactly the last matching record's re-joined value. -/
theorem c9_text_block_parse_law (input k : String) :
    mapLookup (parse_and_store_as_map input) k =
      ((rustLines input).filterMap (recordValueFor k)).getLast? := by
  unfold parse_and_store_as_map
  rw [parse_fold_lookup]
  cases h : ((rustLines input).filterMap (recordValueFor k)).getLast? <;> rfl

/-! ## Claim about tile collidability -/

/-- C10: for every tile view produced by the world's `getTile` or
`getTiles` operations, the `isCollidable` field is true iff the tile's
collision type — obtained by looking up the tile's foreground item id in
the item database, defaulting to 0 when the item is absent — equals
1 or 6. -/
theorem c10_collidable_iff_collision_type (db : ItemDatabase) (w : World) :
    (∀ x y t, LuaWorld.getTile db w x y = some t →
      (t.isCollidable = true ↔
        (collisionTypeOf db t.foreground = 1 ∨ collisionTypeOf db t.foreground = 6)))
    ∧ (∀ t ∈ LuaWorld.getTiles db w,
        t.isCollidable = true ↔
          (collisionTypeOf db t.foreground = 1 ∨ collisionTypeOf db t.foreground = 6)) := by
  constructor
  · intro x y t ht
    unfold LuaWorld.getTile at ht
    cases hg : w.get_tile x y with
    | none => rw [hg] at ht; simp at ht
    | some tile =>
      rw [hg] at ht
      simp only [Option.map_some', Option.some.injEq] at ht
      subst ht
      simp [mkLuaTile, LuaTile.isCollidable, Bool.or_eq_true, beq_iff_eq]
  · intro t ht
    unfold LuaWorld.getTiles at ht
    obtain ⟨tile, _, rfl⟩ := List.mem_map.mp ht
    simp [mkLuaTile, LuaTile.isCollidable, Bool.or_eq_true, beq_iff_eq]

/-- Witness for C10 at the bedrock tile of `world0` (collision type 6). -/
theorem c10_collidable_iff_collision_type_witness :
    (mkLuaTile db0 ⟨0, 1, 9, 0, TileType.Seed⟩).isCollidable = true ↔
      (collisionTypeOf db0 (mkLuaTile db0 ⟨0, 1, 9, 0, TileType.Seed⟩).foreground = 1
       ∨ collisionTypeOf db0 (mkLuaTile db0 ⟨0, 1, 9, 0, TileType.Seed⟩).foreground = 6) :=
  (c10_collidable_iff_collision_type db0 world0).1 0 1 _ rfl

end Mori
